import Mathlib

/-!
Shallow embedding of the `ns_trcd_runner` acquisition engine.

Numeric values (voltages, wavelengths, calibration constants) are modelled as
rationals.  Fallible operations are modelled with `Except String`; the
instrument stack (oscilloscope curve transfers and waveform preambles) is
modelled as an environment of pure response functions indexed by the number of
calls made so far, together with an explicit oscilloscope state holding the
per-channel vertical offset/scale and the call counters.  Side effects of the
orchestrator (directory creation, actuator motion, persistence) are recorded as
an explicit event trace.
-/

set_option maxHeartbeats 1000000
set_option maxRecDepth 100000

deriving instance DecidableEq for Except

/-- Data needed to reconstruct oscilloscope signals from digitizer levels
(`experiment.py`, dataclass `Preamble`). -/
structure Preamble where
  t_res : ℚ
  v_scale_par : ℚ
  v_zero_par : ℚ
  v_offset_par : ℚ
  v_scale_perp : ℚ
  v_zero_perp : ℚ
  v_offset_perp : ℚ
  v_scale_ref : ℚ
  v_zero_ref : ℚ
  v_offset_ref : ℚ
  points : ℕ
  deriving DecidableEq

/-- Raw digitizer levels from a single acquisition (`DigitizerLevels`). -/
structure DigitizerLevels where
  par : List ℚ
  perp : List ℚ
  ref : List ℚ
  deriving DecidableEq

/-- Reconstructed signals for a measurement (`Voltages`). -/
structure Voltages where
  par : List ℚ
  perp : List ℚ
  ref : List ℚ
  deriving DecidableEq

/-- Dark signals collected between measurements (`DarkSignals`). -/
structure DarkSignals where
  par : ℚ
  perp : ℚ
  ref : ℚ
  deriving DecidableEq

/-- `reconstruct_voltages_from_dig_levels(pre, channels, dark_sigs=None)`:
per channel, `voltage = v_scale * (code - v_offset) + v_zero`, with the dark
baseline additionally subtracted when `dark_sigs` is present.  The numpy
broadcasting over sample arrays is modelled by `List.map`. -/
def reconstruct_voltages_from_dig_levels (pre : Preamble) (channels : DigitizerLevels)
    (dark_sigs : Option DarkSignals) : Voltages :=
  match dark_sigs with
  | some d =>
      { par := channels.par.map
          (fun c => pre.v_scale_par * (c - pre.v_offset_par) + pre.v_zero_par - d.par)
        perp := channels.perp.map
          (fun c => pre.v_scale_perp * (c - pre.v_offset_perp) + pre.v_zero_perp - d.perp)
        ref := channels.ref.map
          (fun c => pre.v_scale_ref * (c - pre.v_offset_ref) + pre.v_zero_ref - d.ref) }
  | none =>
      { par := channels.par.map
          (fun c => pre.v_scale_par * (c - pre.v_offset_par) + pre.v_zero_par)
        perp := channels.perp.map
          (fun c => pre.v_scale_perp * (c - pre.v_offset_perp) + pre.v_zero_perp)
        ref := channels.ref.map
          (fun c => pre.v_scale_ref * (c - pre.v_offset_ref) + pre.v_zero_ref) }

/-- `np.mean` of a sample list (sum divided by length). -/
def np_mean (xs : List ℚ) : ℚ := xs.sum / xs.length

/-- `wl_to_str(w)`: `f"{int(np.floor(w*100))}"`. -/
def wl_to_str (w : ℚ) : String := Int.repr ⌊w * 100⌋

/-- Left zero-padding, as done by the `04d` format specifier. -/
def zfill (width : ℕ) (s : String) : String :=
  if s.length < width then String.mk (List.replicate (width - s.length) '0') ++ s else s

/-- `shot_to_str(shot)`: `f"{shot+1:04d}"`. -/
def shot_to_str (shot : ℕ) : String := zfill 4 (Nat.repr (shot + 1))

/-- The directory slot used for one measurement:
`outdir / shot_to_str(shot) / wl_to_str(w)` relative to the output root. -/
def slot (shot : ℕ) (w : ℚ) : String := shot_to_str shot ++ "/" ++ wl_to_str w

/-- `np.arange(start, stop, step)`: `⌈(stop - start) / step⌉` evenly spaced
values beginning at `start`.  (For a step pointing away from `stop` the length
formula is non-positive and the result is empty, as in numpy.) -/
def np_arange (start stop step : ℚ) : List ℚ :=
  (List.range (⌈(stop - start) / step⌉).toNat).map (fun (k : ℕ) => start + (k : ℚ) * step)

/-- `validate_wavelength_range(start, stop, step)` from `main.py`.  The Python
function `sys.exit`s with a printed message on invalid input and simply returns
otherwise; here the error message is the `Except.error` value, and on success
the (now known to be present) three values are returned. -/
def validate_wavelength_range (start stop step : Option ℚ) :
    Except String (ℚ × ℚ × ℚ) :=
  match start with
  | none => .error "An initial wavelength is required."
  | some a =>
    match stop with
    | none => .error "A final wavelength is required."
    | some b =>
      match step with
      | none => .error "A wavelength step is required."
      | some c =>
        if a < 780 ∨ a > 850 ∨ b < 780 ∨ b > 850 then
          .error "Wavelengths must be in the range [780, 850]nm."
        else if a ≥ b then
          .error "Final wavelength must be greater than initial wavelength."
        else if c = 0 then
          .error "Wavelength step must be > 0."
        else .ok (a, b, c)

/-- `make_wavelength_list(start, stop, step, wl_list)` from `main.py`:
either the explicit list, or `np.arange(start, stop+1, step)` after
validation. -/
def make_wavelength_list (start stop step : Option ℚ) (wl_list : List ℚ) :
    Except String (List ℚ) :=
  if (start.isSome ∧ stop.isSome ∧ step.isSome) ∧ wl_list.length ≠ 0 then
    .error "Cannot specify both a wavelength range and individual wavelengths."
  else if (start.isNone ∧ stop.isNone ∧ step.isNone) ∧ wl_list.length = 0 then
    .error "No wavelengths specified."
  else if wl_list.length ≠ 0 then
    .ok wl_list
  else
    match validate_wavelength_range start stop step with
    | .error e => .error e
    | .ok (a, b, c) => .ok (np_arange a (b + 1) c)

/-- The delta argument handling in `__main__.py`: `argparse` parses
`--delta`/`-d` as a float with default `0.038` and passes the value straight
through to the experiment.  No validation of the value is performed anywhere,
so the result is always `Except.ok`. -/
def parse_delta (cli : Option ℚ) : Except String ℚ := .ok (cli.getD (38 / 1000))

/-- Observable milestones of `main.run` (`main.py`), in program order:
the wavelength plan is built before any hardware object is constructed. -/
inductive MainEvent where
  | planBuilt (wls : List ℚ)
  | actuatorInit
  | scopeInit
  | monochromatorInit
  | experimentRun
  deriving DecidableEq

/-- The portion of `main.run` relevant to plan construction:
`make_wavelength_list` runs first; the actuator, oscilloscope and
monochromator are only opened afterwards, so a plan error occurs before any
hardware motion. -/
def run_main (start stop step : Option ℚ) (wl_list : List ℚ) :
    Except String (List MainEvent) :=
  match make_wavelength_list start stop step wl_list with
  | .error e => .error e
  | .ok wls =>
      .ok [.planBuilt wls, .actuatorInit, .scopeInit, .monochromatorInit, .experimentRun]

/-- The loop of `iter_chunks`, made structurally recursive on a fuel bound so
that it evaluates by kernel reduction.  Each non-final iteration consumes at
least one element, so `xs.length` fuel is always enough. -/
def iterChunksFuel {α : Type} : ℕ → List α → ℕ → List (List α)
  | 0, _, _ => []
  | fuel + 1, xs, size =>
    if (xs.take size).length = 0 then []
    else xs.take size :: iterChunksFuel fuel (xs.drop size) size

/-- `iter_chunks(iterable, size)`: repeatedly slice off `size` elements and
yield the slice, stopping at the first empty slice. -/
def iter_chunks {α : Type} (xs : List α) (size : ℕ) : List (List α) :=
  iterChunksFuel xs.length xs size

/-- Fuel irrelevance: any fuel at least `xs.length` gives the same chunks. -/
theorem iterChunksFuel_congr {α : Type} :
    ∀ (f g : ℕ) (xs : List α) (size : ℕ), xs.length ≤ f → xs.length ≤ g →
      iterChunksFuel f xs size = iterChunksFuel g xs size := by
  intro f
  induction f with
  | zero =>
    intro g xs size hf _
    have hxs : xs = [] := List.eq_nil_of_length_eq_zero (Nat.le_zero.mp hf)
    subst hxs
    cases g with
    | zero => rfl
    | succ g => simp [iterChunksFuel]
  | succ f ih =>
    intro g xs size hf hg
    cases g with
    | zero =>
      have hxs : xs = [] := List.eq_nil_of_length_eq_zero (Nat.le_zero.mp hg)
      subst hxs
      simp [iterChunksFuel]
    | succ g =>
      simp only [iterChunksFuel]
      by_cases h : (xs.take size).length = 0
      · simp [h]
      · simp only [h, if_false]
        have hlen : (xs.drop size).length ≤ f := by
          simp only [List.length_take] at h
          simp only [List.length_drop]
          omega
        have hlen2 : (xs.drop size).length ≤ g := by
          simp only [List.length_take] at h
          simp only [List.length_drop]
          omega
        rw [ih g (xs.drop size) size hlen hlen2]

/-- The one-step unfolding of `iter_chunks`, matching the Python loop body. -/
theorem iter_chunks_eq {α : Type} (xs : List α) (size : ℕ) :
    iter_chunks xs size =
      if (xs.take size).length = 0 then []
      else xs.take size :: iter_chunks (xs.drop size) size := by
  unfold iter_chunks
  cases hxs : xs with
  | nil => cases size <;> simp [iterChunksFuel]
  | cons a as =>
    simp only [List.length_cons, iterChunksFuel]
    by_cases h : ((a :: as).take size).length = 0
    · simp [h]
    · simp only [h, if_false, List.cons.injEq, true_and]
      apply iterChunksFuel_congr
      · simp only [List.length_take] at h
        simp only [List.length_drop, List.length_cons]
        omega
      · rfl

/-- Stubbed instrument responses: the result of the n-th `get_curve` query and
the n-th captured waveform preamble, counted over the whole run. -/
structure ScopeEnv where
  curve : ℕ → Except String (List ℚ)
  pre : ℕ → Preamble

/-- Oscilloscope state visible to the engine: per-channel `(offset, scale)`
vertical settings for channels 1-3, plus counters of the curve transfers and
preamble captures performed so far (used to index `ScopeEnv`). -/
structure ScopeSt where
  v1 : ℚ × ℚ
  v2 : ℚ × ℚ
  v3 : ℚ × ℚ
  curveCalls : ℕ
  preCalls : ℕ
  deriving DecidableEq

/-- `get_scope_preamble(scope)`: query the per-channel reconstruction constants
from the instrument (stubbed by `env.pre`). -/
def get_scope_preamble (env : ScopeEnv) (st : ScopeSt) : Preamble × ScopeSt :=
  (env.pre st.preCalls, { st with preCalls := st.preCalls + 1 })

/-- `transfer_signals_from_scope(scope)`: three `get_curve` transfers, one per
channel, with no exception handling — the first failing transfer propagates. -/
def transfer_signals_from_scope (env : ScopeEnv) (st : ScopeSt) :
    Except String DigitizerLevels × ScopeSt :=
  match env.curve st.curveCalls with
  | .error e => (.error e, { st with curveCalls := st.curveCalls + 1 })
  | .ok par =>
    match env.curve (st.curveCalls + 1) with
    | .error e => (.error e, { st with curveCalls := st.curveCalls + 2 })
    | .ok perp =>
      match env.curve (st.curveCalls + 2) with
      | .error e => (.error e, { st with curveCalls := st.curveCalls + 3 })
      | .ok ref => (.ok ⟨par, perp, ref⟩, { st with curveCalls := st.curveCalls + 3 })

/-- `set_vertical_scale_for_measuring_offsets(scope, scale=100e-3)`. -/
def set_vertical_scale_for_measuring_offsets (st : ScopeSt) : ScopeSt :=
  { st with v1 := (0, 1/10), v2 := (0, 1/10), v3 := (0, 1/10) }

/-- `set_vertical_scale_for_exp_signals(scope, offsets, scale=10e-3)`. -/
def set_vertical_scale_for_exp_signals (st : ScopeSt) (o1 o2 o3 : ℚ) : ScopeSt :=
  { st with v1 := (o1, 1/100), v2 := (o2, 1/100), v3 := (o3, 1/100) }

/-- `set_vertical_scale_for_dark_signals(scope)`: offset 0, scale 2e-3. -/
def set_vertical_scale_for_dark_signals (st : ScopeSt) : ScopeSt :=
  { st with v1 := (0, 1/500), v2 := (0, 1/500), v3 := (0, 1/500) }

/-- `measure_dark_signals(scope)`: switch to the dark-measurement vertical
range, capture a preamble, blank the pump (auxiliary output, no scope-state
effect), take one acquisition, reconstruct and average it, and unblank the
pump.  The function contains no save/restore of the previous vertical
settings and no exception handler. -/
def measure_dark_signals (env : ScopeEnv) (st : ScopeSt) :
    Except String DarkSignals × ScopeSt :=
  let st1 := set_vertical_scale_for_dark_signals st
  let (pre, st2) := get_scope_preamble env st1
  match transfer_signals_from_scope env st2 with
  | (.error e, st3) => (.error e, st3)
  | (.ok dl, st3) =>
    let v := reconstruct_voltages_from_dig_levels pre dl none
    (.ok ⟨np_mean v.par, np_mean v.perp, np_mean v.ref⟩, st3)

/-- `optimize_vertical_scale(scope)`: coarse measurement at a wide range, then
center each channel on its mean at the experiment scale. -/
def optimize_vertical_scale (env : ScopeEnv) (st : ScopeSt) :
    Except String Unit × ScopeSt :=
  let st1 := set_vertical_scale_for_measuring_offsets st
  let (pre, st2) := get_scope_preamble env st1
  match transfer_signals_from_scope env st2 with
  | (.error e, st3) => (.error e, st3)
  | (.ok dl, st3) =>
    let v := reconstruct_voltages_from_dig_levels pre dl none
    (.ok (), set_vertical_scale_for_exp_signals st3
      (np_mean v.par) (np_mean v.perp) (np_mean v.ref))

/-- Observable actions of `measure_multiwl`, in program order. -/
inductive Event where
  | mkdirEv (dir : String)
  | moveRef
  | moveWl (w : ℚ)
  | darkMeasured (w : ℚ) (d : DarkSignals)
  | autoRanged (w : ℚ)
  | snapshotTaken (w : ℚ) (p : ℕ)
  | saved (shot : ℕ) (w : ℚ) (dir : String) (p : ℕ) (meas : Voltages)
  | darkSigsSaved
  deriving DecidableEq

/-- The inner shot loop of `measure_multiwl`: for each shot of the chunk,
trigger an acquisition, transfer the digitizer levels, reconstruct voltages
using the wavelength's preamble (no dark argument is passed), and persist them
to `shot_to_str(shot)/wl_to_str(w)`.  `p` is the capture index of the preamble
in use, recorded on each save event. -/
def runShots (env : ScopeEnv) (w : ℚ) (p : ℕ) (pre : Preamble) (shots : List ℕ)
    (st : ScopeSt) : Except String Unit × ScopeSt × List Event :=
  match shots with
  | [] => (.ok (), st, [])
  | shot :: rest =>
    match transfer_signals_from_scope env st with
    | (.error e, st1) => (.error e, st1, [])
    | (.ok dl, st1) =>
      let meas := reconstruct_voltages_from_dig_levels pre dl none
      let (r, st2, evs) := runShots env w p pre rest st1
      (r, st2, .saved shot w (slot shot w) p meas :: evs)

/-- The per-wavelength body of `measure_multiwl`: move the etalon to the
wavelength, measure dark signals, auto-range, capture the wavelength's
preamble, then run the chunk's shots. -/
def runWavelengths (env : ScopeEnv) (chunk : List ℕ) (wls : List ℚ)
    (st : ScopeSt) : Except String Unit × ScopeSt × List Event :=
  match wls with
  | [] => (.ok (), st, [])
  | w :: rest =>
    match measure_dark_signals env st with
    | (.error e, st1) => (.error e, st1, [.moveWl w])
    | (.ok d, st1) =>
      match optimize_vertical_scale env st1 with
      | (.error e, st2) => (.error e, st2, [.moveWl w, .darkMeasured w d])
      | (.ok _, st2) =>
        let pIdx := st2.preCalls
        let (pre, st3) := get_scope_preamble env st2
        match runShots env w pIdx pre chunk st3 with
        | (.error e, st4, evs) =>
            (.error e, st4,
              .moveWl w :: .darkMeasured w d :: .autoRanged w :: .snapshotTaken w pIdx :: evs)
        | (.ok _, st4, evs) =>
          let (r, st5, evs2) := runWavelengths env chunk rest st4
          (r, st5,
            .moveWl w :: .darkMeasured w d :: .autoRanged w :: .snapshotTaken w pIdx ::
              (evs ++ evs2))

/-- The directory skeleton created at the start of a chunk:
`mkdir(shot)` then `mkdir(shot/wl)` for every wavelength, for every shot. -/
def chunkDirEvents (chunk : List ℕ) (wls : List ℚ) : List Event :=
  (chunk.map (fun shot =>
    Event.mkdirEv (shot_to_str shot) ::
      wls.map (fun w => Event.mkdirEv (slot shot w)))).flatten

/-- The chunk loop of `measure_multiwl`: create the chunk's directories, move
the etalon to the reference position (the motor must always approach a target
from below), then process every wavelength. -/
def runChunks (env : ScopeEnv) (wls : List ℚ) (chunks : List (List ℕ))
    (st : ScopeSt) : Except String Unit × ScopeSt × List Event :=
  match chunks with
  | [] => (.ok (), st, [])
  | chunk :: rest =>
    match runWavelengths env chunk wls st with
    | (.error e, st1, evs) => (.error e, st1, chunkDirEvents chunk wls ++ .moveRef :: evs)
    | (.ok _, st1, evs) =>
      let (r, st2, evs2) := runChunks env wls rest st1
      (r, st2, chunkDirEvents chunk wls ++ .moveRef :: (evs ++ evs2))

/-- `measure_multiwl(scope, etalon, outdir, num_meas, wls, chunk_size)`:
iterate over `iter_chunks(range(num_meas), chunk_size)` and, on success, save
the run-level dark-signal table (`save_dark_sigs`).  The optional `phone_num`
and `dark_traces` features are disabled (their defaults) in the scenarios the
claims describe and are not modelled. -/
def measure_multiwl (env : ScopeEnv) (st0 : ScopeSt) (num_meas : ℕ) (wls : List ℚ)
    (chunk_size : ℕ) : Except String Unit × List Event :=
  match runChunks env wls (iter_chunks (List.range num_meas) chunk_size) st0 with
  | (.error e, _, evs) => (.error e, evs)
  | (.ok _, _, evs) => (.ok (), evs ++ [.darkSigsSaved])

/-- The voltages of the persisted measurements of a trace, in order. -/
def savedVoltages (tr : List Event) : List Voltages :=
  tr.filterMap (fun e =>
    match e with
    | .saved _ _ _ _ meas => some meas
    | _ => none)

/-- The directory slots of the persisted measurements of a trace, in order. -/
def savedDirs (tr : List Event) : List String :=
  tr.filterMap (fun e =>
    match e with
    | .saved _ _ dir _ _ => some dir
    | _ => none)

/-- The wavelengths of the `move_wl` actuator calls of a trace, in order. -/
def moveWlCalls (tr : List Event) : List ℚ :=
  tr.filterMap (fun e =>
    match e with
    | .moveWl w => some w
    | _ => none)

/-- The number of reference moves (`etalon.move(0)`) in a trace. -/
def moveRefCount (tr : List Event) : ℕ :=
  (tr.filter (fun e =>
    match e with
    | .moveRef => true
    | _ => false)).length

/-- State of the snapshot-discipline checker while scanning a trace:
the wavelength of the last actuator move, whether a dark calibration and an
auto-ranging step have completed since that move, the preamble capture usable
for data shots (taken since that move), and a lower bound forcing preamble
capture indices to be fresh (strictly increasing along the trace). -/
structure ScanSt where
  curWl : Option ℚ
  darkSeen : Bool
  rangeSeen : Bool
  curSnap : Option ℕ
  snapBound : ℕ
  deriving DecidableEq

/-- One step of the snapshot-discipline checker.  A `saved` event is accepted
only if it uses the preamble captured since the current wavelength move; a
`snapshotTaken` event is accepted only after that wavelength's dark
calibration and auto-ranging, with a fresh capture index; any wavelength or
reference move invalidates the current snapshot. -/
def scanStep (s : ScanSt) (e : Event) : Option ScanSt :=
  match e with
  | .mkdirEv _ => some s
  | .darkSigsSaved => some s
  | .moveRef =>
      some { s with curWl := none, darkSeen := false, rangeSeen := false, curSnap := none }
  | .moveWl w =>
      some { curWl := some w, darkSeen := false, rangeSeen := false, curSnap := none,
             snapBound := s.snapBound }
  | .darkMeasured w _ =>
      if s.curWl = some w then some { s with darkSeen := true } else none
  | .autoRanged w =>
      if s.curWl = some w ∧ s.darkSeen = true then some { s with rangeSeen := true } else none
  | .snapshotTaken w p =>
      if s.curWl = some w ∧ s.darkSeen = true ∧ s.rangeSeen = true ∧ s.snapBound ≤ p then
        some { s with curSnap := some p, snapBound := p + 1 }
      else none
  | .saved _ w _ p _ =>
      if s.curWl = some w ∧ s.curSnap = some p then some s else none

/-- Run the snapshot-discipline checker over a trace. -/
def scanList (s : ScanSt) (tr : List Event) : Option ScanSt :=
  match tr with
  | [] => some s
  | e :: rest =>
    match scanStep s e with
    | none => none
    | some s1 => scanList s1 rest

/-- Initial checker state: nothing moved, measured or captured yet. -/
def initScan : ScanSt := ⟨none, false, false, none, 0⟩

/-- A trace obeys the snapshot discipline if the checker accepts all of it. -/
def snapshotDiscipline (tr : List Event) : Bool := (scanList initScan tr).isSome

/-- The fixed calibration snapshot of the end-to-end scenario: every channel
has scale 0.01, zero-code offset 0 and zero-point voltage 0. -/
def preFixed : Preamble := ⟨0, 1/100, 0, 0, 1/100, 0, 0, 1/100, 0, 0, 3⟩

/-- The deterministic digitizer stub of the end-to-end scenario: every curve
transfer yields raw codes `[100, 200, 300]` and every preamble capture yields
`preFixed`. -/
def stubEnvOk : ScopeEnv := ⟨fun _ => .ok [100, 200, 300], fun _ => preFixed⟩

/-- A transfer stub whose first curve query fails with a transport fault and
which succeeds from then on ("fails once then succeeds"). -/
def envFailOnce : ScopeEnv :=
  ⟨fun k => if k = 0 then .error "TransportError" else .ok [100, 200, 300],
   fun _ => preFixed⟩

/-- An initial oscilloscope state: channels at offset 0, scale 10e-3 (the
experiment-signal scale), no calls made yet. -/
def initSt : ScopeSt := ⟨(0, 1/100), (0, 1/100), (0, 1/100), 0, 0⟩

/-- The event trace of the end-to-end scenario: plan `[790, 800, 810]`,
2 shots per wavelength, default chunk size 10, deterministic stub. -/
def traceC1 : List Event := (measure_multiwl stubEnvOk initSt 2 [790, 800, 810] 10).2

namespace Monochromator

/-- Python whitespace class `\s` (ASCII range, as produced by the serial
device). -/
def isPySpace (c : Char) : Bool :=
  c = ' ' ∨ c = '\t' ∨ c = '\n' ∨ c = '\r' ∨ c = '\x0b' ∨ c = '\x0c'

/-- Does a trailing segment satisfy `.*$` (no MULTILINE, no DOTALL): all
characters before a possible final newline must be non-newline. -/
def tailOk (t : List Char) : Bool := decide ('\n' ∉ t.dropLast)

/-- `re.search` of the compiled pattern `^Z\s+(-?\d+).*$` on a response.
Because of the `^` anchor the match can only start at position 0; `\s` and
`\d` are disjoint and `-` is neither, so the greedy quantifiers need no
backtracking.  On success the result is `(group 0, group 1)`: the matched text
and the signed digit string. -/
def matchPos (resp : List Char) : Option (List Char × List Char) :=
  match resp with
  | 'Z' :: rest =>
    let ws := rest.takeWhile isPySpace
    if ws.isEmpty then none
    else
      let r1 := rest.dropWhile isPySpace
      let (sign, r2) : List Char × List Char :=
        match r1 with
        | '-' :: r => (['-'], r)
        | r => ([], r)
      let ds := r2.takeWhile Char.isDigit
      if ds.isEmpty then none
      else
        let t := r2.dropWhile Char.isDigit
        if tailOk t then
          let matched := 'Z' :: ws ++ sign ++ ds ++
            (if t.getLast? = some '\n' then t.dropLast else t)
          some (matched, sign ++ ds)
        else none
  | _ => none

/-- The group list of a successful `re.search`: index 0 is the whole match,
index 1 the single capture group. -/
def search_groups (resp : List Char) : Option (List (List Char)) :=
  (matchPos resp).map (fun m => [m.1, m.2])

/-- `int(text)` on a string matched by `-?\d+`. -/
def parseSignedInt (s : List Char) : ℤ :=
  match s with
  | '-' :: ds => -(ds.foldl (fun acc c => 10 * acc + (c.toNat - 48)) 0 : ℕ)
  | ds => (ds.foldl (fun acc c => 10 * acc + (c.toNat - 48)) 0 : ℕ)

/-- The possible outcomes of `Monochromator.pos` for a given response text. -/
inductive PosOutcome where
  | ok (n : ℤ)
  | parseErrorReport
  | uncaughtTypeError
  deriving DecidableEq

/-- `Monochromator.pos`: `match = self._pos_regex.search(resp)`, then
`text_pos = match[1]` inside `try`, with `except IndexError` reporting a parse
failure and exiting.  When the search fails, `match` is `None` and `match[1]`
raises `TypeError`, which the `except IndexError` clause does not catch
(modelled as `uncaughtTypeError`); when it succeeds, `match[1]` raises
`IndexError` only if the group list has no index 1 (modelled as
`parseErrorReport`, the intended error report). -/
def pos (resp : List Char) : PosOutcome :=
  match search_groups resp with
  | none => .uncaughtTypeError
  | some groups =>
    match groups.get? 1 with
    | none => .parseErrorReport
    | some text_pos => .ok (parseSignedInt text_pos)

end Monochromator

/-- The three curve transfers of `transfer_signals_from_scope` never touch the
vertical settings: whatever the outcome, the returned scope state has the same
per-channel offset/scale as the input state. -/
theorem transfer_preserves_vertical (env : ScopeEnv) (st : ScopeSt) :
    (transfer_signals_from_scope env st).2.v1 = st.v1 ∧
    (transfer_signals_from_scope env st).2.v2 = st.v2 ∧
    (transfer_signals_from_scope env st).2.v3 = st.v3 := by
  unfold transfer_signals_from_scope
  rcases h0 : env.curve st.curveCalls with e | par
  · simp
  · rcases h1 : env.curve (st.curveCalls + 1) with e | perp
    · simp
    · rcases h2 : env.curve (st.curveCalls + 2) with e | ref
      · simp
      · simp

/-- C1 (counterexample): in the end-to-end scenario (plan `[790, 800, 810]`,
2 shots per wavelength, raw codes `[100,200,300]`, snapshot scale 0.01 with
zero offset and zero point), the dark baseline measured at wavelength 790 is
2.0 per channel, yet every persisted voltage triple is `[1.0, 2.0, 3.0]` — the
engine never passes the dark signals to the reconstruction of the persisted
shots, so the persisted triples are not `[1.0, 2.0, 3.0]` minus the dark
baseline as the claim states. -/
theorem endToEnd_darkSubtraction_cex :
    Event.darkMeasured 790 ⟨2, 2, 2⟩ ∈ traceC1 ∧
    savedVoltages traceC1 = List.replicate 6 ⟨[1, 2, 3], [1, 2, 3], [1, 2, 3]⟩ ∧
    (⟨[1, 2, 3], [1, 2, 3], [1, 2, 3]⟩ : Voltages) ≠
      ⟨[1 - 2, 2 - 2, 3 - 2], [1 - 2, 2 - 2, 3 - 2], [1 - 2, 2 - 2, 3 - 2]⟩ := by
  with_unfolding_all decide

/-- C1 (amended): in the end-to-end scenario the engine persists exactly 6
voltage triples, each equal to `[1.0, 2.0, 3.0]` with no dark-baseline
subtraction (dark signals are recorded in a separate run-level table), and it
invokes the actuator exactly 3 times (once per wavelength) plus one reference
move for the single chunk. -/
theorem endToEnd_scenario_trace :
    (savedVoltages traceC1).length = 6 ∧
    savedVoltages traceC1 = List.replicate 6 ⟨[1, 2, 3], [1, 2, 3], [1, 2, 3]⟩ ∧
    moveWlCalls traceC1 = [790, 800, 810] ∧
    moveRefCount traceC1 = 1 := by
  with_unfolding_all decide

/-- C2 (counterexample): with a transfer stub whose first curve query fails
with a transport fault and which succeeds from then on, the claim predicts a
successful shot with one retry; instead the run aborts with the transport
fault and persists nothing, because no retry exists anywhere in the
transfer path. -/
theorem transfer_retry_cex :
    envFailOnce.curve 0 = .error "TransportError" ∧
    envFailOnce.curve 1 = .ok [100, 200, 300] ∧
    (measure_multiwl envFailOnce initSt 2 [790, 800, 810] 10).1 =
      .error "TransportError" ∧
    savedVoltages (measure_multiwl envFailOnce initSt 2 [790, 800, 810] 10).2 = [] := by
  with_unfolding_all decide

/-- C2 (amended): a failing waveform transfer is never retried — the first
transport fault propagates out of `transfer_signals_from_scope` unchanged —
and a fault aborts the whole run without persisting any shot (shown on the
fails-once-then-succeeds stub). -/
theorem transfer_no_retry (env : ScopeEnv) (st : ScopeSt) (e : String)
    (h : env.curve st.curveCalls = .error e) :
    transfer_signals_from_scope env st =
      (.error e, { st with curveCalls := st.curveCalls + 1 }) ∧
    (measure_multiwl envFailOnce initSt 2 [790, 800, 810] 10).1 =
      .error "TransportError" ∧
    savedVoltages (measure_multiwl envFailOnce initSt 2 [790, 800, 810] 10).2 = [] := by
  refine ⟨?_, by with_unfolding_all decide, by with_unfolding_all decide⟩
  unfold transfer_signals_from_scope
  rw [h]

/-- Witness for `transfer_no_retry` at the fails-once stub. -/
theorem transfer_no_retry_witness :
    transfer_signals_from_scope envFailOnce initSt =
      (.error "TransportError", { initSt with curveCalls := initSt.curveCalls + 1 }) ∧
    (measure_multiwl envFailOnce initSt 2 [790, 800, 810] 10).1 =
      .error "TransportError" ∧
    savedVoltages (measure_multiwl envFailOnce initSt 2 [790, 800, 810] 10).2 = [] :=
  transfer_no_retry envFailOnce initSt "TransportError" rfl

/-- C3 (counterexample): entering the dark-signal calibrator with channels at
the experiment scale 10e-3, it returns with every channel at the
dark-measurement scale 2e-3: no save/restore of the vertical settings exists
in `measure_dark_signals`, so the claimed restoration does not happen. -/
theorem dark_restore_cex :
    initSt.v1 = (0, 1/100) ∧
    (measure_dark_signals stubEnvOk initSt).2.v1 = (0, 1/500) ∧
    ((0, 1/500) : ℚ × ℚ) ≠ ((0, 1/100) : ℚ × ℚ) := by
  with_unfolding_all decide

/-- C3 (amended): `measure_dark_signals` performs no save/restore at all — for
every environment and every entry state, and whether the acquisition inside
succeeds or fails, it exits with all three channels left at the
dark-measurement sensitivity (offset 0, scale 2e-3).  The instrument is only
re-ranged later by the separate auto-ranging step. -/
theorem dark_leaves_sensitivity (env : ScopeEnv) (st : ScopeSt) :
    (measure_dark_signals env st).2.v1 = (0, 1/500) ∧
    (measure_dark_signals env st).2.v2 = (0, 1/500) ∧
    (measure_dark_signals env st).2.v3 = (0, 1/500) := by
  unfold measure_dark_signals
  rcases h : transfer_signals_from_scope env
      (get_scope_preamble env (set_vertical_scale_for_dark_signals st)).2 with ⟨r, st3⟩
  have hv := transfer_preserves_vertical env
      (get_scope_preamble env (set_vertical_scale_for_dark_signals st)).2
  rw [h] at hv
  rcases r with e | dl <;>
    simp_all [get_scope_preamble, set_vertical_scale_for_dark_signals]

/-- C4: reconstruction computes `scale * (code - zero_code_offset) +
zero_point_voltage` on every channel, subtracts that channel's dark baseline
exactly when a dark signal is supplied (`reconstruct(code, dark)` equals
`reconstruct(code)` minus `dark` pointwise), and skips the subtraction (never
failing) when it is absent. -/
theorem reconstruct_spec (pre : Preamble) (ch : DigitizerLevels) (d : DarkSignals) :
    reconstruct_voltages_from_dig_levels pre ch none =
      ⟨ch.par.map (fun c => pre.v_scale_par * (c - pre.v_offset_par) + pre.v_zero_par),
       ch.perp.map (fun c => pre.v_scale_perp * (c - pre.v_offset_perp) + pre.v_zero_perp),
       ch.ref.map (fun c => pre.v_scale_ref * (c - pre.v_offset_ref) + pre.v_zero_ref)⟩ ∧
    reconstruct_voltages_from_dig_levels pre ch (some d) =
      ⟨(reconstruct_voltages_from_dig_levels pre ch none).par.map (fun v => v - d.par),
       (reconstruct_voltages_from_dig_levels pre ch none).perp.map (fun v => v - d.perp),
       (reconstruct_voltages_from_dig_levels pre ch none).ref.map (fun v => v - d.ref)⟩ := by
  refine ⟨rfl, ?_⟩
  simp [reconstruct_voltages_from_dig_levels, List.map_map, Function.comp_def]

/-- C6 (counterexample): a retardation constant of zero is accepted by the
argument handling — `parse_delta` returns it unchanged rather than failing
with a configuration error as the claim states. -/
theorem delta_validation_cex : parse_delta (some 0) = .ok 0 := rfl

/-- C6 (amended): the wavelength-range construction behaves as claimed —
`make_plan(790, 800, 5)` yields `[790, 795, 800]` and `make_plan(800, 790, 5)`
fails with a configuration error before any hardware object is created — but
the retardation constant delta undergoes no validation at all: every value,
including zero and negatives, is passed through to the experiment. -/
theorem plan_validation_amended :
    make_wavelength_list (some 790) (some 800) (some 5) [] = .ok [790, 795, 800] ∧
    run_main (some 800) (some 790) (some 5) [] =
      .error "Final wavelength must be greater than initial wavelength." ∧
    (∀ d : ℚ, parse_delta (some d) = .ok d) :=
  ⟨by with_unfolding_all decide, by with_unfolding_all decide, fun d => rfl⟩

/-- C7 (counterexample): validation accepts `start=840, stop=850, step=10.5`,
but the generated plan is `[840, 850.5]`, whose last wavelength exceeds both
`stop` and the actuator's travel-range bound 850 (arange runs to `stop + 1`
exclusive). -/
theorem plan_invariant_cex :
    validate_wavelength_range (some 840) (some 850) (some (21/2)) =
      .ok (840, 850, 21/2) ∧
    make_wavelength_list (some 840) (some 850) (some (21/2)) [] =
      .ok [840, 1701/2] ∧
    ¬((1701/2 : ℚ) ≤ 850) := by
  with_unfolding_all decide

/-- C8: the output directory slot is the 1-based shot index zero-padded to 4
digits, a separator, and the floor of 100 times the wavelength; shot 0 at
wavelength 812.34 maps to `"0001/81234"`, and the slots persisted in the
end-to-end trace follow the same scheme. -/
theorem slot_naming :
    slot 0 (40617 / 50) = "0001/81234" ∧
    shot_to_str 0 = "0001" ∧
    wl_to_str (40617 / 50) = "81234" ∧
    savedDirs traceC1 =
      ["0001/79000", "0002/79000", "0001/80000", "0002/80000", "0001/81000", "0002/81000"] ∧
    (∀ s : ℕ, ∀ w : ℚ, slot s w = zfill 4 (Nat.repr (s + 1)) ++ "/" ++ Int.repr ⌊w * 100⌋) := by
  refine ⟨?_, ?_, ?_, ?_, fun s w => rfl⟩ <;> with_unfolding_all decide

/-- C10: the parse-error report of `Monochromator.pos` is unreachable.  When
the regex search fails the subscript is applied to `None` and raises
`TypeError`, which the `except IndexError` clause does not catch; when the
search succeeds, group 1 always exists (the capture group is not optional), so
no `IndexError` is ever raised. -/
theorem pos_parse_error_unreachable :
    (∀ resp : List Char, Monochromator.pos resp ≠ .parseErrorReport) ∧
    (∀ resp : List Char, Monochromator.search_groups resp = none →
      Monochromator.pos resp = .uncaughtTypeError) ∧
    Monochromator.pos "Z 123\r\n".toList = .ok 123 := by
  refine ⟨?_, ?_, by with_unfolding_all decide⟩
  · intro resp
    unfold Monochromator.pos Monochromator.search_groups
    cases Monochromator.matchPos resp with
    | none => simp
    | some m => simp
  · intro resp h
    unfold Monochromator.pos
    rw [h]

/-- Witness for `pos_parse_error_unreachable` on a non-matching response. -/
theorem pos_parse_error_witness :
    Monochromator.pos "garbage".toList = .uncaughtTypeError :=
  pos_parse_error_unreachable.2.1 "garbage".toList (by with_unfolding_all decide)

/-- Helper for C9: the chunks concatenate back to the input list. -/
theorem iter_chunks_flatten {α : Type} (n : ℕ) (hn : 1 ≤ n) :
    ∀ (fuel : ℕ) (xs : List α), xs.length ≤ fuel →
      (iter_chunks xs n).flatten = xs := by
  intro fuel
  induction fuel with
  | zero =>
    intro xs h
    have hxs : xs = [] := List.eq_nil_of_length_eq_zero (Nat.le_zero.mp h)
    subst hxs
    rw [iter_chunks_eq]
    simp
  | succ fuel ih =>
    intro xs h
    rw [iter_chunks_eq]
    by_cases h0 : (xs.take n).length = 0
    · simp only [h0, if_true, List.flatten_nil]
      simp only [List.length_take] at h0
      have : xs.length = 0 := by omega
      exact (List.eq_nil_of_length_eq_zero this).symm
    · simp only [h0, if_false, List.flatten_cons]
      rw [ih (xs.drop n)
        (by simp only [List.length_take] at h0; simp only [List.length_drop]; omega)]
      exact List.take_append_drop n xs

/-- Helper for C9: every yielded chunk is non-empty. -/
theorem iter_chunks_ne_nil {α : Type} (n : ℕ) :
    ∀ (fuel : ℕ) (xs : List α), xs.length ≤ fuel →
      ∀ c ∈ iter_chunks xs n, c ≠ [] := by
  intro fuel
  induction fuel with
  | zero =>
    intro xs h
    have hxs : xs = [] := List.eq_nil_of_length_eq_zero (Nat.le_zero.mp h)
    subst hxs
    rw [iter_chunks_eq]
    simp
  | succ fuel ih =>
    intro xs h c hc
    rw [iter_chunks_eq] at hc
    by_cases h0 : (xs.take n).length = 0
    · simp [h0] at hc
    · simp only [h0, if_false, List.mem_cons] at hc
      rcases hc with rfl | hc
      · intro hnil
        exact h0 (by rw [hnil]; rfl)
      · exact ih (xs.drop n)
          (by simp only [List.length_take] at h0; simp only [List.length_drop]; omega) c hc

/-- Helper for C9: `iter_chunks` yields nothing only when the first slice is
empty. -/
theorem iter_chunks_eq_nil_iff {α : Type} (xs : List α) (n : ℕ) :
    iter_chunks xs n = [] ↔ (xs.take n).length = 0 := by
  rw [iter_chunks_eq]
  by_cases h0 : (xs.take n).length = 0
  · simp [h0]
  · simp only [h0, if_false]
    constructor
    · intro h
      exact (List.cons_ne_nil _ _ h).elim
    · intro h
      exact h.elim

/-- Helper for C9: every chunk except possibly the last has exactly `n`
elements. -/
theorem iter_chunks_full {α : Type} (n : ℕ) (hn : 1 ≤ n) :
    ∀ (fuel : ℕ) (xs : List α), xs.length ≤ fuel →
      ∀ c ∈ (iter_chunks xs n).dropLast, c.length = n := by
  intro fuel
  induction fuel with
  | zero =>
    intro xs h
    have hxs : xs = [] := List.eq_nil_of_length_eq_zero (Nat.le_zero.mp h)
    subst hxs
    rw [iter_chunks_eq]
    simp
  | succ fuel ih =>
    intro xs h c hc
    rw [iter_chunks_eq] at hc
    by_cases h0 : (xs.take n).length = 0
    · simp [h0] at hc
    · simp only [h0, if_false] at hc
      by_cases h1 : iter_chunks (xs.drop n) n = []
      · rw [h1] at hc
        simp at hc
      · rw [List.dropLast_cons_of_ne_nil h1] at hc
        rcases List.mem_cons.mp hc with rfl | hc2
        · have hlen : ¬ (xs.drop n).length = 0 := by
            intro hz
            exact h1 ((iter_chunks_eq_nil_iff (xs.drop n) n).mpr (by simp [hz]))
          simp only [List.length_drop] at hlen
          simp only [List.length_take]
          omega
        · exact ih (xs.drop n)
            (by simp only [List.length_take] at h0; simp only [List.length_drop]; omega)
            c hc2

/-- C9: for every list and chunk size at least 1, `iter_chunks` yields only
non-empty chunks, every chunk except possibly the last has exactly `size`
elements, and the chunks concatenate in order back to the input — so the
chunked shot loop covers every shot index exactly once, in order. -/
theorem iter_chunks_spec {α : Type} (xs : List α) (n : ℕ) (hn : 1 ≤ n) :
    (iter_chunks xs n).flatten = xs ∧
    (∀ c ∈ iter_chunks xs n, c ≠ []) ∧
    (∀ c ∈ (iter_chunks xs n).dropLast, c.length = n) :=
  ⟨iter_chunks_flatten n hn xs.length xs le_rfl,
   iter_chunks_ne_nil n xs.length xs le_rfl,
   iter_chunks_full n hn xs.length xs le_rfl⟩

/-- Witness for `iter_chunks_spec` on a 5-element list with chunk size 2. -/
theorem iter_chunks_spec_witness :
    (iter_chunks [1, 2, 3, 4, 5] 2).flatten = [1, 2, 3, 4, 5] ∧
    (∀ c ∈ iter_chunks [1, 2, 3, 4, 5] 2, c ≠ []) ∧
    (∀ c ∈ (iter_chunks [1, 2, 3, 4, 5] 2).dropLast, c.length = 2) :=
  iter_chunks_spec [1, 2, 3, 4, 5] 2 (by decide)

/-- C7 (amended): for every `start, stop, step` combination accepted by
`validate_wavelength_range`, every wavelength of the generated plan
`np.arange(start, stop+1, step)` is at least 780 and strictly below `stop + 1`
(hence strictly below 851) — it may therefore exceed `stop` and the travel
bound 850 by up to (but not including) 1 — and the plan is strictly
increasing. -/
theorem plan_bounds_amended (a b c : ℚ) (t : ℚ × ℚ × ℚ)
    (h : validate_wavelength_range (some a) (some b) (some c) = .ok t) :
    (∀ w ∈ np_arange a (b + 1) c, 780 ≤ w ∧ w < b + 1 ∧ w < 851) ∧
    List.Chain' (fun x y => x < y) (np_arange a (b + 1) c) := by
  simp only [validate_wavelength_range] at h
  split_ifs at h with h1 h2 h3
  push_neg at h1
  obtain ⟨ha1, ha2, hb1, hb2⟩ := h1
  push_neg at h2
  rcases lt_or_gt_of_ne h3 with hc | hc
  · have hlen : (⌈(b + 1 - a) / c⌉).toNat = 0 := by
      apply Int.toNat_eq_zero.mpr
      apply Int.ceil_le.mpr
      push_cast
      apply le_of_lt
      apply div_neg_of_pos_of_neg _ hc
      linarith
    have hnil : np_arange a (b + 1) c = [] := by
      unfold np_arange
      rw [hlen]
      rfl
    rw [hnil]
    exact ⟨fun w hw => absurd hw (List.not_mem_nil w), List.chain'_nil⟩
  · have hmem : ∀ w ∈ np_arange a (b + 1) c, 780 ≤ w ∧ w < b + 1 ∧ w < 851 := by
      intro w hw
      unfold np_arange at hw
      obtain ⟨k, hk, rfl⟩ := List.mem_map.mp hw
      have hk2 := List.mem_range.mp hk
      have hkQ : (k : ℚ) < (b + 1 - a) / c := by
        have hkZ : (k : ℤ) < ⌈(b + 1 - a) / c⌉ := Int.lt_toNat.mp hk2
        exact_mod_cast Int.lt_ceil.mp hkZ
      have hkc : (k : ℚ) * c < b + 1 - a := (lt_div_iff₀ hc).mp hkQ
      have hk0 : (0 : ℚ) ≤ (k : ℚ) * c := mul_nonneg (Nat.cast_nonneg k) hc.le
      refine ⟨by linarith, by linarith, by linarith⟩
    refine ⟨hmem, ?_⟩
    unfold np_arange
    rw [List.chain'_map]
    cases hn : (⌈(b + 1 - a) / c⌉).toNat with
    | zero => simp
    | succ m =>
      rw [List.chain'_range_succ]
      intro i hi
      have hlt : (i : ℚ) * c < ((i + 1 : ℕ) : ℚ) * c := by
        apply mul_lt_mul_of_pos_right _ hc
        exact_mod_cast Nat.lt_succ_self i
      linarith

/-- Witness for `plan_bounds_amended` at the accepted range 790..800 step 5. -/
theorem plan_bounds_witness :
    validate_wavelength_range (some 790) (some 800) (some 5) = .ok (790, 800, 5) ∧
    ((∀ w ∈ np_arange 790 (800 + 1) 5, 780 ≤ w ∧ w < 800 + 1 ∧ w < 851) ∧
     List.Chain' (fun x y => x < y) (np_arange 790 (800 + 1) 5)) :=
  ⟨by with_unfolding_all decide,
   plan_bounds_amended 790 800 5 (790, 800, 5) (by with_unfolding_all decide)⟩

/-- An environment whose curve transfers never fail. -/
def CurveOk (env : ScopeEnv) : Prop := ∀ k, ∃ xs, env.curve k = .ok xs

/-- Scanning a concatenation: scan the prefix, then the suffix. -/
theorem scanList_append (a b : List Event) :
    ∀ s : ScanSt, scanList s (a ++ b) =
      match scanList s a with
      | none => none
      | some s1 => scanList s1 b := by
  induction a with
  | nil => intro s; rfl
  | cons e rest ih =>
    intro s
    simp only [List.cons_append, scanList]
    cases scanStep s e with
    | none => rfl
    | some s1 => exact ih s1

/-- A list of directory-creation events is invisible to the checker. -/
theorem scanList_mkdirs (evs : List Event)
    (h : ∀ e ∈ evs, ∃ d, e = .mkdirEv d) :
    ∀ s : ScanSt, scanList s evs = some s := by
  induction evs with
  | nil => intro s; rfl
  | cons e rest ih =>
    intro s
    obtain ⟨d, rfl⟩ := h e (List.mem_cons_self e rest)
    simp only [scanList, scanStep]
    exact ih (fun x hx => h x (List.mem_cons_of_mem _ hx)) s

/-- Every event of a chunk's directory skeleton is a directory creation. -/
theorem chunkDirEvents_mkdirs (chunk : List ℕ) (wls : List ℚ) :
    ∀ e ∈ chunkDirEvents chunk wls, ∃ d, e = .mkdirEv d := by
  intro e he
  unfold chunkDirEvents at he
  obtain ⟨l, hl, hel⟩ := List.mem_flatten.mp he
  obtain ⟨shot, _, rfl⟩ := List.mem_map.mp hl
  rcases List.mem_cons.mp hel with rfl | hmem
  · exact ⟨_, rfl⟩
  · obtain ⟨w, _, rfl⟩ := List.mem_map.mp hmem
    exact ⟨_, rfl⟩

/-- With a fault-free environment, a transfer succeeds and only advances the
curve counter by three. -/
theorem transfer_ok (env : ScopeEnv) (hok : CurveOk env) (st : ScopeSt) :
    ∃ dl, transfer_signals_from_scope env st =
      (.ok dl, { st with curveCalls := st.curveCalls + 3 }) := by
  obtain ⟨xs0, h0⟩ := hok st.curveCalls
  obtain ⟨xs1, h1⟩ := hok (st.curveCalls + 1)
  obtain ⟨xs2, h2⟩ := hok (st.curveCalls + 2)
  refine ⟨⟨xs0, xs1, xs2⟩, ?_⟩
  unfold transfer_signals_from_scope
  rw [h0, h1, h2]

/-- With a fault-free environment, the dark calibrator succeeds, consumes one
preamble capture and three curve transfers, and exits at the dark vertical
range. -/
theorem dark_ok (env : ScopeEnv) (hok : CurveOk env) (st : ScopeSt) :
    ∃ d, measure_dark_signals env st =
      (.ok d, ⟨(0, 1/500), (0, 1/500), (0, 1/500), st.curveCalls + 3, st.preCalls + 1⟩) := by
  obtain ⟨xs0, h0⟩ := hok st.curveCalls
  obtain ⟨xs1, h1⟩ := hok (st.curveCalls + 1)
  obtain ⟨xs2, h2⟩ := hok (st.curveCalls + 2)
  unfold measure_dark_signals get_scope_preamble set_vertical_scale_for_dark_signals
    transfer_signals_from_scope
  dsimp only
  rw [h0, h1, h2]
  exact ⟨_, rfl⟩

/-- With a fault-free environment, auto-ranging succeeds and consumes one
preamble capture and three curve transfers. -/
theorem optimize_ok (env : ScopeEnv) (hok : CurveOk env) (st : ScopeSt) :
    ∃ st2, optimize_vertical_scale env st = (.ok (), st2) ∧
      st2.curveCalls = st.curveCalls + 3 ∧ st2.preCalls = st.preCalls + 1 := by
  obtain ⟨xs0, h0⟩ := hok st.curveCalls
  obtain ⟨xs1, h1⟩ := hok (st.curveCalls + 1)
  obtain ⟨xs2, h2⟩ := hok (st.curveCalls + 2)
  unfold optimize_vertical_scale get_scope_preamble set_vertical_scale_for_measuring_offsets
    transfer_signals_from_scope
  dsimp only
  rw [h0, h1, h2]
  exact ⟨_, rfl, rfl, rfl⟩

/-- One checker step on a cons trace. -/
theorem scanList_cons (s : ScanSt) (e : Event) (tr : List Event) :
    scanList s (e :: tr) =
      match scanStep s e with
      | none => none
      | some s1 => scanList s1 tr := rfl

/-- Scanning a complete wavelength section header — wavelength move, dark
calibration, auto-ranging, snapshot capture with a fresh index — succeeds from
any checker state and leaves the checker holding that snapshot. -/
theorem scan_section (w : ℚ) (d : DarkSignals) (p : ℕ) (tl : List Event)
    (s : ScanSt) (hp : s.snapBound ≤ p) :
    scanList s (.moveWl w :: .darkMeasured w d :: .autoRanged w ::
        .snapshotTaken w p :: tl) =
      scanList ⟨some w, true, true, some p, p + 1⟩ tl := by
  simp [scanList, scanStep, hp]

/-- With a fault-free environment, the shot loop persists one measurement per
shot, never touches the preamble counter, and its events are invisible to a
checker already holding the section's snapshot. -/
theorem runShots_ok (env : ScopeEnv) (hok : CurveOk env) (w : ℚ) (p : ℕ)
    (pre : Preamble) :
    ∀ (shots : List ℕ) (st : ScopeSt), ∃ st2 evs,
      runShots env w p pre shots st = (.ok (), st2, evs) ∧
      st2.preCalls = st.preCalls ∧
      (∀ s : ScanSt, s.curWl = some w → s.curSnap = some p →
        scanList s evs = some s) := by
  intro shots
  induction shots with
  | nil =>
    intro st
    exact ⟨st, [], rfl, rfl, fun s _ _ => rfl⟩
  | cons shot rest ih =>
    intro st
    obtain ⟨dl, htr⟩ := transfer_ok env hok st
    obtain ⟨st2, evs, hrun, hpre, hscan⟩ := ih { st with curveCalls := st.curveCalls + 3 }
    refine ⟨st2,
      .saved shot w (slot shot w) p (reconstruct_voltages_from_dig_levels pre dl none)
        :: evs, ?_, hpre, ?_⟩
    · unfold runShots
      rw [htr]
      dsimp only
      rw [hrun]
    · intro s hw hp
      rw [scanList_cons]
      have hstep : scanStep s
          (.saved shot w (slot shot w) p
            (reconstruct_voltages_from_dig_levels pre dl none)) = some s := by
        simp [scanStep, hw, hp]
      rw [hstep]
      exact hscan s hw hp

/-- With a fault-free environment, the per-wavelength loop succeeds, consumes
three preamble captures per wavelength, and its event trace passes the
snapshot-discipline checker from any state whose freshness bound is at most
the entry preamble counter. -/
theorem runWavelengths_ok (env : ScopeEnv) (hok : CurveOk env) (chunk : List ℕ) :
    ∀ (wls : List ℚ) (st : ScopeSt), ∃ st2 evs,
      runWavelengths env chunk wls st = (.ok (), st2, evs) ∧
      st2.preCalls = st.preCalls + 3 * wls.length ∧
      (∀ s : ScanSt, s.snapBound ≤ st.preCalls →
        ∃ s2, scanList s evs = some s2 ∧ s2.snapBound ≤ st2.preCalls) := by
  intro wls
  induction wls with
  | nil =>
    intro st
    exact ⟨st, [], rfl, by simp, fun s hs => ⟨s, rfl, hs⟩⟩
  | cons w rest ih =>
    intro st
    obtain ⟨d, hdark⟩ := dark_ok env hok st
    obtain ⟨stO, hopt, hocc, hopc⟩ := optimize_ok env hok
      ⟨(0, 1/500), (0, 1/500), (0, 1/500), st.curveCalls + 3, st.preCalls + 1⟩
    obtain ⟨st4, evsS, hshots, hspre, hscanS⟩ := runShots_ok env hok w stO.preCalls
      (env.pre stO.preCalls) chunk { stO with preCalls := stO.preCalls + 1 }
    obtain ⟨st5, evs2, hrest, hrpre, hscanR⟩ := ih st4
    have hOpre : stO.preCalls = st.preCalls + 2 := by
      rw [hopc]
    have h4pre : st4.preCalls = st.preCalls + 3 := by
      rw [hspre]
      dsimp only
      omega
    refine ⟨st5,
      .moveWl w :: .darkMeasured w d :: .autoRanged w ::
        .snapshotTaken w stO.preCalls :: (evsS ++ evs2), ?_, ?_, ?_⟩
    · unfold runWavelengths
      rw [hdark]
      dsimp only
      rw [hopt]
      dsimp only
      unfold get_scope_preamble
      dsimp only
      rw [hshots]
      dsimp only
      rw [hrest]
    · rw [hrpre, h4pre]
      simp only [List.length_cons]
      ring
    · intro s hs
      rw [scan_section w d stO.preCalls _ s (by omega)]
      rw [scanList_append]
      rw [hscanS ⟨some w, true, true, some stO.preCalls, stO.preCalls + 1⟩ rfl rfl]
      obtain ⟨s2, hs2, hb2⟩ := hscanR
        ⟨some w, true, true, some stO.preCalls, stO.preCalls + 1⟩ (by simp; omega)
      exact ⟨s2, hs2, hb2⟩

/-- With a fault-free environment, the chunk loop succeeds and its full event
trace passes the snapshot-discipline checker. -/
theorem runChunks_ok (env : ScopeEnv) (hok : CurveOk env) (wls : List ℚ) :
    ∀ (chunks : List (List ℕ)) (st : ScopeSt), ∃ st2 evs,
      runChunks env wls chunks st = (.ok (), st2, evs) ∧
      (∀ s : ScanSt, s.snapBound ≤ st.preCalls →
        ∃ s2, scanList s evs = some s2 ∧ s2.snapBound ≤ st2.preCalls) := by
  intro chunks
  induction chunks with
  | nil =>
    intro st
    exact ⟨st, [], rfl, fun s hs => ⟨s, rfl, hs⟩⟩
  | cons chunk rest ih =>
    intro st
    obtain ⟨st1, evs1, hw, hwpre, hwscan⟩ := runWavelengths_ok env hok chunk wls st
    obtain ⟨st2, evs2, hr, hrscan⟩ := ih st1
    refine ⟨st2, chunkDirEvents chunk wls ++ .moveRef :: (evs1 ++ evs2), ?_, ?_⟩
    · unfold runChunks
      rw [hw]
      dsimp only
      rw [hr]
    · intro s hs
      rw [scanList_append, scanList_mkdirs _ (chunkDirEvents_mkdirs chunk wls) s]
      dsimp only
      rw [scanList_cons]
      dsimp only [scanStep]
      obtain ⟨s2, hs2, hb2⟩ := hwscan ⟨none, false, false, none, s.snapBound⟩ hs
      rw [scanList_append, hs2]
      exact hrscan s2 hb2

/-- C5: in any run with a fault-free digitizer, the snapshot discipline holds
throughout the trace: every persisted shot uses the preamble captured since
its wavelength's actuator move, that capture happens only after the
wavelength's dark calibration and auto-ranging and before the wavelength's
first shot, capture indices are strictly increasing, and any actuator move
invalidates the current snapshot — so a snapshot is never reused across a
wavelength boundary. -/
theorem snapshot_discipline_holds (env : ScopeEnv) (st0 : ScopeSt) (n : ℕ)
    (wls : List ℚ) (cs : ℕ) (hok : CurveOk env) :
    snapshotDiscipline (measure_multiwl env st0 n wls cs).2 = true := by
  obtain ⟨st2, evs, hrun, hscan⟩ :=
    runChunks_ok env hok wls (iter_chunks (List.range n) cs) st0
  obtain ⟨s2, hs2, _⟩ := hscan initScan (Nat.zero_le _)
  unfold measure_multiwl
  rw [hrun]
  dsimp only
  unfold snapshotDiscipline
  rw [scanList_append, hs2]
  rfl

/-- Witness for `snapshot_discipline_holds` on the deterministic stub of the
end-to-end scenario. -/
theorem snapshot_discipline_witness :
    snapshotDiscipline (measure_multiwl stubEnvOk initSt 2 [790, 800, 810] 10).2 = true :=
  snapshot_discipline_holds stubEnvOk initSt 2 [790, 800, 810] 10
    (fun _ => ⟨[100, 200, 300], rfl⟩)
